/-
Verification of the Django-serializer-to-TypeScript generator
(dj_serializers_to_ts.py) against its design specification.

The script is a one-shot pipeline: discover serializer classes under a
backend directory, resolve the fields of each class to TypeScript type
strings, and write one `<Name>.ts` interface file per class plus an
aggregating `tempindex.ts`.  We give a shallow embedding of the script:
Python runtime objects (field instances, classes, modules, paths) become
explicit Lean data, Python dicts become association lists with
insert-or-update semantics, paths become lists of components (with the
path separator modelled as "/"), and the filesystem becomes a map from
paths to file contents.  All definitions are executable and translated
from the source.
-/

import Mathlib

namespace DjTs

/-- Is `pat` a prefix of the second list?  (Model of Python substring
matching at the head of a character list.) -/
def leadMatch : List Char → List Char → Bool
  | [], _ => true
  | _ :: _, [] => false
  | p :: ps, c :: cs => p == c && leadMatch ps cs

/-- Fuel-driven worker for `pyReplace`: scan left to right; at each
position, if the pattern matches, emit the replacement and skip the
pattern, else keep the character and advance by one.  The fuel starts at
the length of the scanned list and bounds the number of steps, keeping
the recursion structural (hence kernel-reducible). -/
def replaceGo (pat repl : List Char) : Nat → List Char → List Char
  | _, [] => []
  | 0, l => l
  | fuel + 1, c :: cs =>
    if leadMatch pat (c :: cs) then
      repl ++ replaceGo pat repl fuel (List.drop (pat.length - 1) cs)
    else
      c :: replaceGo pat repl fuel cs

/-- Model of Python `s.replace(pat, repl)`: replace every non-overlapping
occurrence of `pat`, scanning left to right.  The script only ever calls
`replace` with a non-empty pattern; for an empty pattern we return `s`
unchanged. -/
def pyReplace (s pat repl : String) : String :=
  if pat.data.isEmpty then s
  else String.mk (replaceGo pat.data repl.data s.data.length s.data)

/-- `name.replace("Serializer", "")`: the derivation of an interface name
from a class name used throughout the script (in
`extract_serializer_fields` and `find_serializer_classes`). -/
def stripSer (s : String) : String := pyReplace s "Serializer" ""

/-- Lexicographic comparison of character lists by code point, the order
Python `sorted` uses on strings. -/
def charListLe : List Char → List Char → Bool
  | [], _ => true
  | _ :: _, [] => false
  | a :: as, b :: bs => if a = b then charListLe as bs else decide (a < b)

/-- Lexicographic order on strings (Boolean form). -/
def strLe (a b : String) : Bool := charListLe a.data b.data

/-- Lexicographic order on strings (propositional form), used as the
sorting relation. -/
def strLeP (a b : String) : Prop := strLe a b = true

instance : DecidableRel strLeP := fun a b => by unfold strLeP; infer_instance

/-- Model of Python `sorted` on a list of strings. -/
def sortStr (l : List String) : List String := l.insertionSort strLeP

/-- Does string `s` start with `pre`?  (Model of Python `str.startswith`.) -/
def strStarts (s pre : String) : Bool := leadMatch pre.data s.data

/-- Model of Python `sep.join(parts)`. -/
def joinSep (sep : String) : List String → String
  | [] => ""
  | [x] => x
  | x :: xs => x ++ sep ++ joinSep sep xs

/-- The common worker of `os.path.relpath(path, start)` on component
lists: drop the common prefix, then one ".." per remaining `start`
component followed by the remaining `path` components. -/
def relpathGo : List String → List String → List String
  | p :: ps, s :: ss =>
    if p == s then relpathGo ps ss
    else (s :: ss).map (fun _ => "..") ++ p :: ps
  | ps, ss => ss.map (fun _ => "..") ++ ps

/-- Model of `os.path.relpath(path, start)` on already-resolved component
lists (`relpath` returns "." when the two coincide). -/
def relpath (path start : List String) : List String :=
  let r := relpathGo path start
  if r.isEmpty then ["."] else r

/-- Render a relative path the way the script does:
`os.path.relpath(...).replace(".ts", "").replace(os.sep, "/")`.  The
separator is modelled as "/", so the second replace is the identity and
rendering is joining with "/" then removing every ".ts" occurrence. -/
def renderRelPath (p : List String) : String :=
  pyReplace (joinSep "/" p) ".ts" ""

/-- A Python dict as an association list: `d[k] = v` updates the value in
place when the key is present (keeping its position) and appends
otherwise. -/
def dictInsert {α : Type} (d : List (String × α)) (k : String) (v : α) :
    List (String × α) :=
  if d.any (fun e => e.1 == k) then
    d.map (fun e => if e.1 == k then (k, v) else e)
  else d ++ [(k, v)]

/-- The `FIELD_TYPE_MAP` dict from the script, as an association list in
source order.  Python dict lookup `FIELD_TYPE_MAP.get(k, d)` corresponds
to `List.lookup` (first match; the keys are distinct). -/
def FIELD_TYPE_MAP : List (String × String) :=
  [("CharField", "string"), ("TextField", "string"), ("SlugField", "string"),
   ("EmailField", "string"), ("URLField", "string"), ("DateField", "string"),
   ("DateTimeField", "string"), ("TimeField", "string"), ("BooleanField", "boolean"),
   ("NullBooleanField", "boolean"), ("IntegerField", "number"), ("SmallIntegerField", "number"),
   ("BigIntegerField", "number"), ("PositiveIntegerField", "number"), ("PositiveSmallIntegerField", "number"),
   ("FloatField", "number"), ("DecimalField", "number"), ("JSONField", "any"),
   ("DictField", "Record<string, any>"), ("ListField", "any[]"), ("SerializerMethodField", "any"),
   ("PrimaryKeyRelatedField", "number"), ("ManyRelatedField", "number[]"),
   ("ImageField", "string"), ("FileField", "string"), ("ChoiceField", "string")]

/-- The values collection of `FIELD_TYPE_MAP` (Python
`FIELD_TYPE_MAP.values()`), used by the dependency filter in `main`. -/
def FIELD_TYPE_MAP_VALUES : List String := FIELD_TYPE_MAP.map Prod.snd

/-- A DRF field instance as the script observes it: its concrete class
name (`field.__class__.__name__`), whether it is an instance of
`serializers.ListSerializer`, whether it is an instance of
`serializers.BaseSerializer`, and, when the `child` attribute exists, the
class name of the child instance (`field.child.__class__.__name__`). -/
structure PyField where
  className : String
  isListSerializer : Bool
  isBaseSerializer : Bool
  child : Option String
  deriving Repr, DecidableEq

/-- The per-field branch of `extract_serializer_fields`:
`isinstance(field, ListSerializer) and hasattr(field, "child")` takes the
list branch; `elif isinstance(field, BaseSerializer)` the nested branch;
otherwise `FIELD_TYPE_MAP.get(field.__class__.__name__, "any")`. -/
def resolveFieldType (f : PyField) : String :=
  if f.isListSerializer && f.child.isSome then
    stripSer (f.child.getD "") ++ "[]"
  else if f.isBaseSerializer then
    stripSer f.className
  else
    (FIELD_TYPE_MAP.lookup f.className).getD "any"

/-- A serializer class as the script observes it: `__name__`,
`__module__`, whether `issubclass(cls, serializers.BaseSerializer)`, and
the items of `cls().get_fields()` in declaration order (a Python dict, so
field names are distinct in any real run). -/
structure PyClass where
  name : String
  module : String
  isBaseSerializerSubclass : Bool
  fields : List (String × PyField)
  deriving Repr, DecidableEq

/-- `extract_serializer_fields(cls)`: the dict mapping each field name of
`cls().get_fields()` to its resolved TypeScript type string. -/
def extract_serializer_fields (cls : PyClass) : List (String × String) :=
  cls.fields.map (fun p => (p.1, resolveFieldType p.2))

/-- `find_serializer_classes(file_path, module_path)`: after executing the
module, the pairs `(name.replace("Serializer", ""), cls)` for the classes
among the members of the module (in `inspect.getmembers` order) with
`issubclass(cls, serializers.BaseSerializer) and cls.__module__ == module_path`. -/
def find_serializer_classes (modulePath : String) (members : List PyClass) :
    List (String × PyClass) :=
  (members.filter (fun c => c.isBaseSerializerSubclass && c.module == modulePath)).map
    (fun c => (stripSer c.name, c))

/-- The dependency set computed in `main` for one interface:
`{t.replace("[]", "") for t in fields.values() if t not in FIELD_TYPE_MAP.values() and t != "any"}`,
modelled as a deduplicated list. -/
def depsOf (fields : List (String × String)) : List String :=
  (((fields.map Prod.snd).filter
      (fun t => !(FIELD_TYPE_MAP_VALUES.contains t) && t != "any")).map
    (fun t => pyReplace t "[]" "")).dedup

/-- One import statement of `write_ts_interface`:
`f"import type {{ {dep} }} from './{rel_path}';\n"` with
`rel_path = os.path.relpath(dep_path, current_dir).replace(".ts", "").replace(os.sep, "/")`. -/
def importLine (dep : String) (depPath currentDir : List String) : String :=
  "import type \x7b " ++ dep ++ " \x7d from \x27./" ++
    renderRelPath (relpath depPath currentDir) ++ "\x27;\n"

/-- The import statements of `write_ts_interface`, in `sorted(deps)`
order, skipping a dependency equal to the interface name and a dependency
absent from `interface_locations`. -/
def importLines (name : String) (deps : List String)
    (locations : List (String × List String)) (currentDir : List String) :
    List String :=
  (sortStr deps).filterMap (fun dep =>
    if dep == name then none
    else
      match locations.lookup dep with
      | none => none
      | some depPath => some (importLine dep depPath currentDir))

/-- One field line of the interface body: `f"  {field}?: {ts_type};\n"`. -/
def fieldLine (p : String × String) : String :=
  "  " ++ p.1 ++ "?: " ++ p.2 ++ ";\n"

/-- `write_ts_interface(name, fields, out_path, deps, current_dir)`: the
full text written to `out_path` (the filesystem side effect is applied by
the pipeline model below).  `locations` is the `interface_locations`
global. -/
def write_ts_interface (name : String) (fields : List (String × String))
    (deps : List String) (locations : List (String × List String))
    (currentDir : List String) : String :=
  String.join (importLines name deps locations currentDir) ++
  (if deps.isEmpty then "" else "\n") ++
  "export interface " ++ name ++ " \x7b\n" ++
  String.join (fields.map fieldLine) ++
  "\x7d\n"

/-- The configured index file name. -/
def TEMP_INDEX_FILENAME : String := "tempindex.ts"

/-- One source file under `BACKEND_DIR`, as `main` sees it: the directory
components of its path relative to the base, its stem (file name without
the ".py" suffix), and the classes among its module members after loading
(in `inspect.getmembers` order). -/
structure SourceFile where
  dirs : List String
  stem : String
  classes : List PyClass
  deriving Repr, DecidableEq

/-- `file_path.name`: the file name including the ".py" suffix. -/
def SourceFile.fileName (sf : SourceFile) : String := sf.stem ++ ".py"

/-- `module_path = ".".join(["api.serializers"] + list(relative_path.with_suffix("").parts))`. -/
def SourceFile.modulePath (sf : SourceFile) : String :=
  joinSep "." ("api.serializers" :: (sf.dirs ++ [sf.stem]))

/-- The discovery loop of `main`: skip files whose name starts with "__",
and collect, per remaining file, the pairs found by
`find_serializer_classes`, tagged with the directory of the file (which
determines `out_path`). -/
def discoveredOf (files : List SourceFile) : List (String × PyClass × List String) :=
  (files.filter (fun sf => !(strStarts sf.fileName "__"))).flatMap
    (fun sf =>
      (find_serializer_classes sf.modulePath sf.classes).map
        (fun p => (p.1, p.2, sf.dirs)))

/-- The two dicts `interface_locations` and `all_interfaces` after the
discovery loop of `main`, built by repeated key assignment.  `outBase` is
the resolved `FRONTEND_DIR` (the resolution depends on the working
directory, so the model takes the component list as a parameter).
`out_path = out_base / relative_path.parent / f"{interface_name}.ts"`. -/
def discoveryTables (outBase : List String) (files : List SourceFile) :
    List (String × List String) ×
      List (String × (List (String × String) × List String)) :=
  (discoveredOf files).foldl
    (fun acc e =>
      (dictInsert acc.1 e.1 (outBase ++ e.2.2 ++ [e.1 ++ ".ts"]),
       dictInsert acc.2 e.1
         (extract_serializer_fields e.2.1, outBase ++ e.2.2 ++ [e.1 ++ ".ts"])))
    ([], [])

/-- The write loop of `main`: for each entry of `all_interfaces`, the
interface file written at `out_path`, whose text is produced by
`write_ts_interface` with `deps` as computed in `main` and
`current_dir = out_path.parent`. -/
def interfaceOutputs (outBase : List String) (files : List SourceFile) :
    List (List String × String) :=
  ((discoveryTables outBase files).2).map
    (fun e =>
      (e.2.2,
       write_ts_interface e.1 e.2.1 (depsOf e.2.1)
         (discoveryTables outBase files).1 (e.2.2).dropLast))

/-- One line of `index_lines`:
`f"export * from './{rel_import}';"` with
`rel_import = os.path.relpath(out_path, out_base).replace(".ts", "").replace(os.sep, "/")`. -/
def indexLineOf (outBase outPath : List String) : String :=
  "export * from \x27./" ++ renderRelPath (relpath outPath outBase) ++ "\x27;"

/-- The `index_lines` list built during the write loop of `main`, in
`all_interfaces` order. -/
def indexLines (outBase : List String) (files : List SourceFile) : List String :=
  ((discoveryTables outBase files).2).map (fun e => indexLineOf outBase e.2.2)

/-- The text of the aggregating index file: the warning comment followed
by `"\n".join(sorted(set(index_lines))) + "\n"`. -/
def indexContent (outBase : List String) (files : List SourceFile) : String :=
  "// 🔄 Auto-generated. Do not edit manually.\n\n" ++
  joinSep "\n" (sortStr (indexLines outBase files).dedup) ++ "\n"

/-- All files written by one run of `main`, in write order: the interface
files, then the index file at the output root. -/
def mainOutputs (outBase : List String) (files : List SourceFile) :
    List (List String × String) :=
  interfaceOutputs outBase files ++
    [(outBase ++ [TEMP_INDEX_FILENAME], indexContent outBase files)]

/-- A filesystem, as a map from paths to file contents. -/
def FS : Type := List String → Option String

/-- Writing one file (unconditional overwrite, as `open(path, "w")`). -/
def fsWrite (fs : FS) (p : List String) (c : String) : FS :=
  fun q => if q = p then some c else fs q

/-- Applying the writes of a run to a filesystem, in order. -/
def applyOutputs (fs : FS) (outs : List (List String × String)) : FS :=
  outs.foldl (fun acc e => fsWrite acc e.1 e.2) fs

/-- The content written last to path `q` by a list of writes, if any
(specification device for reasoning about `applyOutputs`). -/
def lastVal : List (List String × String) → List String → Option String
  | [], _ => none
  | e :: rest, q => (lastVal rest q).or (if e.1 = q then some e.2 else none)

/-- Removal of one trailing "Serializer" suffix — the derivation of
interface names as worded by the spec ("class name with the fixed suffix
removed"), to be compared with `stripSer`, the derivation the program
performs. -/
def removeTrailingSer (s : String) : String :=
  if leadMatch "Serializer".data.reverse s.data.reverse then
    String.mk (s.data.take (s.data.length - 10))
  else s

/-- Example fixture: a qualifying serializer class whose name contains
"Serializer" in a non-suffix position. -/
def exOddClass : PyClass :=
  ⟨"ASerializerB", "api.serializers.books", true, [("name", ⟨"CharField", false, false, none⟩)]⟩

/-- Example fixture: a plain qualifying serializer class. -/
def exAuthorClass : PyClass :=
  ⟨"AuthorSerializer", "api.serializers.books", true,
    [("name", ⟨"CharField", false, false, none⟩)]⟩

/-- Example fixture: a backend tree with a single serializer module. -/
def exFiles : List SourceFile := [⟨[], "books", [exAuthorClass]⟩]

/-! ### Order lemmas for the lexicographic comparison -/

theorem charListLe_total : ∀ as bs : List Char,
    charListLe as bs = true ∨ charListLe bs as = true := by
  intro as
  induction as with
  | nil => intro bs; left; rfl
  | cons a as ih =>
    intro bs
    cases bs with
    | nil => right; rfl
    | cons b bs =>
      by_cases hab : a = b
      · subst hab
        simpa only [charListLe, if_pos rfl] using ih bs
      · rcases lt_or_gt_of_ne hab with h | h
        · left; simp [charListLe, hab, h]
        · right; simp [charListLe, Ne.symm hab, h]

theorem charListLe_trans : ∀ as bs cs : List Char,
    charListLe as bs = true → charListLe bs cs = true → charListLe as cs = true := by
  intro as
  induction as with
  | nil => intro bs cs _ _; rfl
  | cons a as ih =>
    intro bs cs h1 h2
    cases bs with
    | nil => simp [charListLe] at h1
    | cons b bs =>
      cases cs with
      | nil => simp [charListLe] at h2
      | cons c cs =>
        simp only [charListLe] at h1 h2 ⊢
        by_cases hab : a = b
        · subst hab
          simp only [if_pos rfl] at h1
          by_cases hac : a = c
          · subst hac
            simp only [if_pos rfl] at h2 ⊢
            exact ih bs cs h1 h2
          · simp only [if_neg hac] at h2 ⊢
            exact h2
        · simp only [if_neg hab] at h1
          rw [decide_eq_true_eq] at h1
          by_cases hbc : b = c
          · subst hbc
            rw [if_neg hab]
            exact decide_eq_true h1
          · simp only [if_neg hbc] at h2
            rw [decide_eq_true_eq] at h2
            have hac : a < c := lt_trans h1 h2
            rw [if_neg (ne_of_lt hac)]
            exact decide_eq_true hac

instance : IsTotal String strLeP :=
  ⟨fun a b => charListLe_total a.data b.data⟩

instance : IsTrans String strLeP :=
  ⟨fun a b c => charListLe_trans a.data b.data c.data⟩

/-! ### Claim theorems -/

/-- Claim C2: for every field of a serializer class, if the field is a
list wrapper around a child serializer instance, its target type string
is the derived name of the child followed by "[]"; otherwise, if the
field is itself a serializer instance, its target type string is exactly
the derived name of that instance.  (The derived name is `stripSer`, the
name derivation the program applies to class names; claim C1 settles its
exact relation to suffix stripping.) -/
theorem claim2_nested_field_types (f : PyField) :
    (∀ ch, f.isListSerializer = true → f.child = some ch →
      resolveFieldType f = stripSer ch ++ "[]") ∧
    (¬(f.isListSerializer = true ∧ f.child.isSome = true) →
      f.isBaseSerializer = true → resolveFieldType f = stripSer f.className) := by
  constructor
  · intro ch hl hc
    unfold resolveFieldType
    rw [hl, hc]
    simp
  · intro hno hb
    have hfalse : (f.isListSerializer && f.child.isSome) = false := by
      cases hli : f.isListSerializer <;> cases hcs : f.child.isSome <;> simp_all
    unfold resolveFieldType
    rw [hfalse]
    simp [hb]

/-- Witness for C2 at concrete fields: a `many=True` list wrapper whose
child is a `BookSerializer` instance, and a plain nested
`AuthorSerializer` instance. -/
theorem claim2_nested_field_types_witness :
    resolveFieldType ⟨"ListSerializer", true, true, some "BookSerializer"⟩ =
        stripSer "BookSerializer" ++ "[]" ∧
    resolveFieldType ⟨"AuthorSerializer", false, true, none⟩ =
        stripSer "AuthorSerializer" :=
  ⟨(claim2_nested_field_types ⟨"ListSerializer", true, true, some "BookSerializer"⟩).1
      "BookSerializer" rfl rfl,
   (claim2_nested_field_types ⟨"AuthorSerializer", false, true, none⟩).2
      (by decide) rfl⟩

/-- Claim C3: for a non-serializer field whose concrete class name is in
`FIELD_TYPE_MAP`, the emitted type string is exactly the table entry; in
particular the text kind maps to "string", the integer kind to "number"
and the dict kind to "Record<string, any>". -/
theorem claim3_table_lookup (f : PyField) (v : String)
    (hl : f.isListSerializer = false) (hb : f.isBaseSerializer = false)
    (hv : FIELD_TYPE_MAP.lookup f.className = some v) :
    resolveFieldType f = v ∧
    FIELD_TYPE_MAP.lookup "TextField" = some "string" ∧
    FIELD_TYPE_MAP.lookup "IntegerField" = some "number" ∧
    FIELD_TYPE_MAP.lookup "DictField" = some "Record<string, any>" := by
  refine ⟨?_, by decide, by decide, by decide⟩
  unfold resolveFieldType
  rw [hl]
  simp [hb, hv]

/-- Witness for C3: a `TextField` field resolves to "string". -/
theorem claim3_table_lookup_witness :
    FIELD_TYPE_MAP.lookup "TextField" = some "string" ∧
    resolveFieldType ⟨"TextField", false, false, none⟩ = "string" :=
  ⟨by decide,
   (claim3_table_lookup ⟨"TextField", false, false, none⟩ "string" rfl rfl (by decide)).1⟩

/-- Claim C7: a field that is neither a nested serializer nor a list of
nested serializers and whose class name is absent from `FIELD_TYPE_MAP`
resolves to "any", and field extraction never drops a field (the run
does not abort: every field of every class yields exactly its entry). -/
theorem claim7_unknown_kind_any (f : PyField)
    (hl : f.isListSerializer = false) (hb : f.isBaseSerializer = false)
    (hv : FIELD_TYPE_MAP.lookup f.className = none) :
    resolveFieldType f = "any" ∧
    ∀ cls : PyClass,
      (extract_serializer_fields cls).map Prod.fst = cls.fields.map Prod.fst := by
  constructor
  · unfold resolveFieldType
    rw [hl]
    simp [hb, hv]
  · intro cls
    unfold extract_serializer_fields
    rw [List.map_map]
    rfl

/-- Witness for C7: a hypothetical `GeoPointField` is not in the table
and resolves to "any". -/
theorem claim7_unknown_kind_any_witness :
    FIELD_TYPE_MAP.lookup "GeoPointField" = none ∧
    resolveFieldType ⟨"GeoPointField", false, false, none⟩ = "any" :=
  ⟨by decide,
   (claim7_unknown_kind_any ⟨"GeoPointField", false, false, none⟩ rfl rfl (by decide)).1⟩

/-- Claim C6: the loader produces a pair for a class iff the class is a
subclass of the base serializer capability and its defining module equals
the module being scanned (and the pair carries the derived name); and a
source file whose name begins with "__" contributes nothing to
discovery. -/
theorem claim6_loader_filter :
    (∀ (modulePath : String) (members : List PyClass) (nm : String) (c : PyClass),
      (nm, c) ∈ find_serializer_classes modulePath members ↔
        c ∈ members ∧ c.isBaseSerializerSubclass = true ∧ c.module = modulePath ∧
          nm = stripSer c.name) ∧
    (∀ (files : List SourceFile) (sf : SourceFile),
      strStarts sf.fileName "__" = true →
        discoveredOf (sf :: files) = discoveredOf files) := by
  constructor
  · intro modulePath members nm c
    unfold find_serializer_classes
    constructor
    · intro h
      rcases List.mem_map.1 h with ⟨c2, hc2, he⟩
      rcases List.mem_filter.1 hc2 with ⟨hm, hf⟩
      rcases Prod.mk.injEq .. ▸ he with ⟨h1, h2⟩
      subst h2
      simp only [Bool.and_eq_true, beq_iff_eq] at hf
      exact ⟨hm, hf.1, hf.2, h1.symm⟩
    · rintro ⟨hm, hb, hmod, rfl⟩
      exact List.mem_map.2 ⟨c, List.mem_filter.2 ⟨hm, by simp [hb, hmod]⟩, rfl⟩
  · intro files sf h
    unfold discoveredOf
    rw [List.filter_cons_of_neg]
    simp [h]

/-- Witness for C6: the class qualifies in its own module, and a file
named `__init__.py` is skipped. -/
theorem claim6_loader_filter_witness :
    ("Author", (⟨"AuthorSerializer", "m", true, []⟩ : PyClass)) ∈
        find_serializer_classes "m" [⟨"AuthorSerializer", "m", true, []⟩] ∧
    strStarts (SourceFile.fileName ⟨[], "__init__", []⟩) "__" = true ∧
    discoveredOf [⟨[], "__init__", []⟩] = discoveredOf [] :=
  ⟨(claim6_loader_filter.1 "m" [⟨"AuthorSerializer", "m", true, []⟩] "Author"
      ⟨"AuthorSerializer", "m", true, []⟩).2 ⟨by decide, rfl, rfl, by decide⟩,
   by decide,
   claim6_loader_filter.2 [] ⟨[], "__init__", []⟩ (by decide)⟩

/-! ### Helper lemmas about sorting and dependency filtering -/

theorem sortStr_nodup {l : List String} (h : l.Nodup) : (sortStr l).Nodup :=
  ((List.perm_insertionSort strLeP l).nodup_iff).mpr h

theorem depsOf_nodup (fields : List (String × String)) : (depsOf fields).Nodup :=
  List.nodup_dedup _

/-- The import loop of `write_ts_interface` (a filterMap) emits exactly
one line per sorted dependency that is not the interface name and has a
known location. -/
theorem importLines_eq (name : String) (deps : List String)
    (locations : List (String × List String)) (currentDir : List String) :
    importLines name deps locations currentDir =
      ((sortStr deps).filter
          (fun d => !(d == name) && (locations.lookup d).isSome)).map
        (fun d => importLine d ((locations.lookup d).getD []) currentDir) := by
  unfold importLines
  generalize sortStr deps = l
  induction l with
  | nil => rfl
  | cons d l ih =>
    simp only [List.filterMap_cons, List.filter_cons]
    cases hdn : (d == name) with
    | true => simpa [hdn] using ih
    | false =>
      cases hl : locations.lookup d with
      | none => simpa [hdn, hl] using ih
      | some q => simpa [hdn, hl] using ih

/-- Claim C4: the emitted file consists of the import lines followed by
the interface declaration; the import lines are exactly one per
qualifying dependency, in sorted order, each importing from the path of
the dependency relative to the directory of the output file; the
qualifying dependencies are pairwise distinct; and a dependency
qualifies iff it is in the dependency set of the field mapping, differs
from the interface name, and has a known location. -/
theorem claim4_import_lines (name : String) (fields : List (String × String))
    (locations : List (String × List String)) (currentDir : List String) :
    write_ts_interface name fields (depsOf fields) locations currentDir =
      String.join (importLines name (depsOf fields) locations currentDir) ++
        (if (depsOf fields).isEmpty then "" else "\n") ++
        "export interface " ++ name ++ " \x7b\n" ++
        String.join (fields.map fieldLine) ++ "\x7d\n" ∧
    importLines name (depsOf fields) locations currentDir =
      ((sortStr (depsOf fields)).filter
          (fun d => !(d == name) && (locations.lookup d).isSome)).map
        (fun d => importLine d ((locations.lookup d).getD []) currentDir) ∧
    ((sortStr (depsOf fields)).filter
        (fun d => !(d == name) && (locations.lookup d).isSome)).Nodup ∧
    ∀ d, d ∈ (sortStr (depsOf fields)).filter
          (fun d => !(d == name) && (locations.lookup d).isSome) ↔
        d ∈ depsOf fields ∧ d ≠ name ∧ (locations.lookup d).isSome = true := by
  refine ⟨rfl, importLines_eq name (depsOf fields) locations currentDir,
    (sortStr_nodup (depsOf_nodup fields)).filter _, fun d => ?_⟩
  unfold sortStr
  simp [List.mem_filter, List.mem_insertionSort, and_assoc]

/-- Claim C8: the emitted interface declaration lists, after the imports
and in source order, one line per entry of the resolved field mapping;
each entry occurs exactly once (field names are dict keys, hence
distinct), and its line declares the field optional with the resolved
target type. -/
theorem claim8_interface_body (name : String) (fields : List (String × String))
    (deps : List String) (locations : List (String × List String))
    (currentDir : List String) (hnd : (fields.map Prod.fst).Nodup) :
    write_ts_interface name fields deps locations currentDir =
      String.join (importLines name deps locations currentDir) ++
        (if deps.isEmpty then "" else "\n") ++
        "export interface " ++ name ++ " \x7b\n" ++
        String.join (fields.map fieldLine) ++ "\x7d\n" ∧
    fields.Nodup ∧
    ∀ p ∈ fields, fieldLine p = "  " ++ p.1 ++ "?: " ++ p.2 ++ ";\n" :=
  ⟨rfl, hnd.of_map _, fun p _ => rfl⟩

/-- Witness for C8, on the scenario of the spec: the `Author` interface
with a single text field produces exactly the expected file body. -/
theorem claim8_interface_body_witness :
    (([("name", "string")] : List (String × String)).map Prod.fst).Nodup ∧
    write_ts_interface "Author" [("name", "string")] [] [] [] =
      "export interface Author \x7b\n  name?: string;\n\x7d\n" := by
  refine ⟨by decide, ?_⟩
  rw [(claim8_interface_body "Author" [("name", "string")] [] [] [] (by decide)).1]
  decide

/-- Claim C10 as stated is false: a list-wrapped nested serializer whose
derived name is "string" yields the target type "string[]", which is not
among the table values, so the dependency "string" survives the filter
and an import line for it is emitted when its location is known. -/
theorem claim10_counterexample :
    "string" ∈ depsOf (extract_serializer_fields
        ⟨"FooSerializer", "m", true,
          [("tags", ⟨"ListSerializer", true, true, some "stringSerializer"⟩)]⟩) ∧
    importLines "Foo"
        (depsOf (extract_serializer_fields
          ⟨"FooSerializer", "m", true,
            [("tags", ⟨"ListSerializer", true, true, some "stringSerializer"⟩)]⟩))
        [("string", ["types", "string.ts"])] ["types"] =
      ["import type \x7b string \x7d from \x27./string\x27;\n"] := by
  decide

/-- Claim C10, amended: a dependency enters the dependency set iff some
field target type string — with its "[]" marker still attached — is
neither a table value nor "any" and strips to it.  In particular a
single nested serializer deriving to a table value ("string", "number",
"any", ...) is excluded, and a list-wrapped one is excluded exactly when
its derived name followed by "[]" is itself a table value (as for
"number[]" and "any[]", but not "string[]"). -/
theorem claim10_amended (fields : List (String × String)) (d : String) :
    (d ∈ depsOf fields ↔
      ∃ t, t ∈ fields.map Prod.snd ∧ t ∉ FIELD_TYPE_MAP_VALUES ∧ t ≠ "any" ∧
        d = pyReplace t "[]" "") ∧
    "string" ∉ depsOf [("author", "string")] ∧
    "string" ∈ depsOf [("tags", "string[]")] ∧
    "number" ∉ depsOf [("ids", "number[]")] ∧
    "any" ∉ depsOf [("data", "any[]")] := by
  refine ⟨?_, by decide, by decide, by decide, by decide⟩
  unfold depsOf
  simp only [List.mem_dedup, List.mem_map, List.mem_filter, Bool.and_eq_true,
    Bool.not_eq_true', bne_iff_ne, ne_eq]
  constructor
  · rintro ⟨t, ⟨ht, hc, ha⟩, rfl⟩
    refine ⟨t, ht, ?_, ha, rfl⟩
    intro hmem
    simp [hmem] at hc
  · rintro ⟨t, ht, hnmem, ha, rfl⟩
    exact ⟨t, ⟨ht, by simp [hnmem], ha⟩, rfl⟩

/-! ### Idempotence of a run (claim C9) -/

theorem applyOutputs_apply :
    ∀ (outs : List (List String × String)) (fs : FS) (q : List String),
      applyOutputs fs outs q = (lastVal outs q).or (fs q) := by
  intro outs
  induction outs with
  | nil => intro fs q; rfl
  | cons e rest ih =>
    intro fs q
    show applyOutputs (fsWrite fs e.1 e.2) rest q = (lastVal (e :: rest) q).or (fs q)
    rw [ih]
    simp only [lastVal]
    rw [Option.or_assoc]
    congr 1
    by_cases h : e.1 = q
    · subst h
      simp [fsWrite, Option.or]
    · have h2 : ¬q = e.1 := fun hq => h hq.symm
      simp [fsWrite, h, h2, Option.or]

/-- Claim C9: applying the writes of one run twice leaves the same
filesystem as applying them once — with unchanged input, the second run
rewrites every output file with byte-identical content. -/
theorem claim9_idempotent (fs : FS) (outBase : List String)
    (files : List SourceFile) :
    applyOutputs (applyOutputs fs (mainOutputs outBase files))
        (mainOutputs outBase files) =
      applyOutputs fs (mainOutputs outBase files) := by
  funext q
  rw [applyOutputs_apply, applyOutputs_apply]
  cases hl : lastVal (mainOutputs outBase files) q with
  | none => rfl
  | some c => rfl

/-! ### The discovery tables of main (claims C1 and C5) -/

theorem foldl_pair {α β γ : Type} (f : α → γ → α) (g : β → γ → β) :
    ∀ (l : List γ) (a : α) (b : β),
      l.foldl (fun acc e => (f acc.1 e, g acc.2 e)) (a, b) = (l.foldl f a, l.foldl g b) := by
  intro l
  induction l with
  | nil => intro a b; rfl
  | cons e l ih => intro a b; simp only [List.foldl_cons]; exact ih (f a e) (g b e)

/-- Folding dict assignment over entries with pairwise-distinct keys that
are fresh for the accumulator appends the entries in order. -/
theorem foldl_dictInsert_eq {α β : Type} (key : β → String) (val : β → α) :
    ∀ (l : List β) (acc : List (String × α)),
      (∀ b ∈ l, ∀ e ∈ acc, e.1 ≠ key b) →
      (l.map key).Nodup →
      l.foldl (fun d e => dictInsert d (key e) (val e)) acc =
        acc ++ l.map (fun e => (key e, val e)) := by
  intro l
  induction l with
  | nil => intro acc _ _; simp
  | cons b l ih =>
    intro acc hdis hnd
    rw [List.map_cons, List.nodup_cons] at hnd
    have hnotin : (acc.any (fun e => e.1 == key b)) = false := by
      rw [List.any_eq_false]
      intro e he
      simpa using hdis b (List.mem_cons_self b l) e he
    have h1 : dictInsert acc (key b) (val b) = acc ++ [(key b, val b)] := by
      unfold dictInsert
      rw [hnotin]
      simp
    rw [List.foldl_cons, h1, ih (acc ++ [(key b, val b)]) ?_ hnd.2]
    · simp
    · intro b2 hb2 e he
      rcases List.mem_append.1 he with h | h
      · exact hdis b2 (List.mem_cons_of_mem b hb2) e h
      · rcases List.mem_singleton.1 h with rfl
        intro heq
        apply hnd.1
        have heq2 : key b = key b2 := heq
        rw [heq2]
        exact List.mem_map_of_mem key hb2

theorem discoveryTables_eq (outBase : List String) (files : List SourceFile) :
    discoveryTables outBase files =
      ((discoveredOf files).foldl
          (fun d e => dictInsert d e.1 (outBase ++ e.2.2 ++ [e.1 ++ ".ts"])) [],
        (discoveredOf files).foldl
          (fun d e => dictInsert d e.1
            (extract_serializer_fields e.2.1, outBase ++ e.2.2 ++ [e.1 ++ ".ts"])) []) := by
  unfold discoveryTables
  exact foldl_pair
    (fun d e => dictInsert d e.1 (outBase ++ e.2.2 ++ [e.1 ++ ".ts"]))
    (fun d e => dictInsert d e.1
      (extract_serializer_fields e.2.1, outBase ++ e.2.2 ++ [e.1 ++ ".ts"]))
    (discoveredOf files) [] []

/-- With pairwise-distinct derived names, `all_interfaces` is just the
discovery list with its computed fields and output paths. -/
theorem allInterfacesList (outBase : List String) (files : List SourceFile)
    (hnd : ((discoveredOf files).map (fun e => e.1)).Nodup) :
    (discoveryTables outBase files).2 =
      (discoveredOf files).map
        (fun e => (e.1, (extract_serializer_fields e.2.1, outBase ++ e.2.2 ++ [e.1 ++ ".ts"]))) := by
  rw [discoveryTables_eq]
  have h := foldl_dictInsert_eq (fun e => e.1)
    (fun e => (extract_serializer_fields e.2.1, outBase ++ e.2.2 ++ [e.1 ++ ".ts"]))
    (discoveredOf files) [] (fun _ _ e he => absurd he (List.not_mem_nil e)) hnd
  simpa using h

/-- Every discovered pair carries the derived name of its class. -/
theorem discovered_name (files : List SourceFile) :
    ∀ e ∈ discoveredOf files, e.1 = stripSer e.2.1.name := by
  intro e he
  unfold discoveredOf at he
  rcases List.mem_flatMap.1 he with ⟨sf, _, hin⟩
  rcases List.mem_map.1 hin with ⟨p, hp, rfl⟩
  unfold find_serializer_classes at hp
  rcases List.mem_map.1 hp with ⟨c, _, rfl⟩
  rfl

theorem strAppend_cancel_right {a b c : String} (h : a ++ c = b ++ c) : a = b := by
  apply String.ext
  have hd : a.data ++ c.data = b.data ++ c.data := congrArg String.data h
  exact List.append_cancel_right hd

theorem countP_congr_mem {α : Type} (l : List α) (p q : α → Bool)
    (h : ∀ a ∈ l, p a = q a) : l.countP p = l.countP q := by
  induction l with
  | nil => rfl
  | cons a l ih =>
    rw [List.countP_cons, List.countP_cons, h a (List.mem_cons_self a l),
      ih (fun b hb => h b (List.mem_cons_of_mem a hb))]

theorem count_map_eq {α β : Type} [BEq β] (f : α → β) (l : List α) (b : β) :
    (l.map f).count b = l.countP (fun a => f a == b) :=
  List.countP_map (fun x => x == b) f l

/-- Claim C1 as stated is false: for the qualifying class `ASerializerB`
the program derives the interface name "AB" (every occurrence of
"Serializer" is removed), which differs from the class name with the
fixed suffix removed (here "ASerializerB", which does not end in the
suffix). -/
theorem claim1_counterexample :
    (find_serializer_classes "api.serializers.books" [exOddClass]).map Prod.fst = ["AB"] ∧
    removeTrailingSer exOddClass.name = "ASerializerB" ∧
    ("AB" : String) ≠ "ASerializerB" := by
  decide

/-- Claim C1, amended: the derived interface name (used for the output
file name, the exported interface name and nested references) is the
class name with every occurrence of the substring "Serializer" removed —
which agrees with removing the fixed suffix whenever "Serializer" occurs
only as a trailing suffix — and, provided the derived names of the
discovered classes are pairwise distinct (the collision-freedom
invariant of the spec), exactly one interface output file named
`<InterfaceName>.ts` is produced per discovered class. -/
theorem claim1_amended (outBase : List String) (files : List SourceFile)
    (hnd : ((discoveredOf files).map (fun e => e.1)).Nodup)
    (nm : String) (c : PyClass) (dirs : List String)
    (hmem : (nm, c, dirs) ∈ discoveredOf files) :
    nm = stripSer c.name ∧
    ((interfaceOutputs outBase files).map Prod.fst).count
        (outBase ++ dirs ++ [nm ++ ".ts"]) = 1 := by
  constructor
  · exact discovered_name files (nm, c, dirs) hmem
  · have key : ∀ e ∈ discoveredOf files,
        ((outBase ++ e.2.2 ++ [e.1 ++ ".ts"] : List String) ==
            (outBase ++ dirs ++ [nm ++ ".ts"] : List String)) = (e.1 == nm) := by
      intro e he
      by_cases h1 : e.1 = nm
      · have he2 : e = (nm, c, dirs) :=
          List.inj_on_of_nodup_map hnd he hmem h1
        rw [he2]
        simp
      · have hne : (outBase ++ e.2.2 ++ [e.1 ++ ".ts"] : List String) ≠
            (outBase ++ dirs ++ [nm ++ ".ts"]) := by
          intro hp
          have hlast := congrArg List.getLast? hp
          rw [List.getLast?_concat, List.getLast?_concat] at hlast
          exact h1 (strAppend_cancel_right (Option.some.inj hlast))
        rw [beq_eq_false_iff_ne.mpr hne, eq_comm, beq_eq_false_iff_ne]
        exact h1
    unfold interfaceOutputs
    rw [allInterfacesList outBase files hnd, List.map_map, List.map_map,
      count_map_eq]
    show List.countP
        (fun a : String × PyClass × List String =>
          (outBase ++ a.2.2 ++ [a.1 ++ ".ts"] : List String) ==
            (outBase ++ dirs ++ [nm ++ ".ts"])) (discoveredOf files) = 1
    rw [countP_congr_mem _ _ (fun e : String × PyClass × List String => e.1 == nm) key,
      show List.countP (fun e : String × PyClass × List String => e.1 == nm)
            (discoveredOf files) =
          ((discoveredOf files).map (fun e => e.1)).count nm
        from (count_map_eq _ _ _).symm]
    exact List.count_eq_one_of_mem hnd
      (List.mem_map_of_mem (fun e => e.1) hmem)

/-- Witness for C1 (amended): one qualifying class `AuthorSerializer`
yields exactly one output file `Author.ts`. -/
theorem claim1_amended_witness :
    ((discoveredOf exFiles).map (fun e => e.1)).Nodup ∧
    ("Author", exAuthorClass, ([] : List String)) ∈ discoveredOf exFiles ∧
    (("Author" : String) = stripSer exAuthorClass.name ∧
      ((interfaceOutputs ["out"] exFiles).map Prod.fst).count
          (["out"] ++ ([] : List String) ++ ["Author" ++ ".ts"]) = 1) :=
  ⟨by decide, by decide,
   claim1_amended ["out"] exFiles (by decide) "Author" exAuthorClass [] (by decide)⟩

/-- Claim C5: the index file consists of the generated-file warning
comment followed by the re-export lines; those lines are sorted in the
lexicographic order and pairwise distinct, and (when distinct interface
files have distinct re-export lines, which holds in every
collision-free run) they are exactly one line per generated interface
file — a permutation of the per-file lines. -/
theorem claim5_index_file (outBase : List String) (files : List SourceFile)
    (hinj : (indexLines outBase files).Nodup) :
    indexContent outBase files =
      "// 🔄 Auto-generated. Do not edit manually.\n\n" ++
        joinSep "\n" (sortStr (indexLines outBase files).dedup) ++ "\n" ∧
    List.Sorted strLeP (sortStr (indexLines outBase files).dedup) ∧
    (sortStr (indexLines outBase files).dedup).Nodup ∧
    (sortStr (indexLines outBase files).dedup).Perm (indexLines outBase files) := by
  refine ⟨rfl, List.sorted_insertionSort strLeP _,
    sortStr_nodup (List.nodup_dedup _), ?_⟩
  rw [List.dedup_eq_self.mpr hinj]
  exact List.perm_insertionSort strLeP _

/-- Witness for C5: the single-class fixture produces a nodup line list
and the expected index file text. -/
theorem claim5_index_file_witness :
    (indexLines ["out"] exFiles).Nodup ∧
    indexContent ["out"] exFiles =
      "// 🔄 Auto-generated. Do not edit manually.\n\n" ++
        joinSep "\n" (sortStr (indexLines ["out"] exFiles).dedup) ++ "\n" :=
  ⟨by decide, (claim5_index_file ["out"] exFiles (by decide)).1⟩

end DjTs

